import Mathlib

/-!
Verification of the App Attest attestation/assertion verification scripts
(`scripts/verify_attestation.py`, `scripts/verify_assertion.py`).

Byte strings are modelled as `List Nat` (one entry per byte).  Python
operations that can raise are modelled with `Option`/`Except`; the
`try ... except` wrapper of each top-level verifier is an explicit match on
the `Except` value.  Library primitives (SHA-256, base64, X.509 signature
checking, JSON serialisation) are abstracted as oracle function parameters,
since the scripts consume them as opaque primitives.
-/

namespace AppAttest

abbrev Bytes := List Nat

/-- `int.from_bytes(b, 'big')`. -/
def beNat (l : Bytes) : Nat := l.foldl (fun acc b => acc * 256 + b) 0

/-- Python slice `b[lo:hi]` (clamping, never raising). -/
def pySlice (b : Bytes) (lo hi : Nat) : Bytes := (b.take hi).drop lo

/-- `struct.unpack('>I', s)[0]`: requires exactly 4 bytes, else `struct.error`. -/
def unpackBE4 (s : Bytes) : Option Nat := if s.length = 4 then some (beNat s) else none

/-- `struct.unpack('>H', s)[0]`: requires exactly 2 bytes, else `struct.error`. -/
def unpackBE2 (s : Bytes) : Option Nat := if s.length = 2 then some (beNat s) else none

/-- `s.encode()` for the ASCII strings used by the scripts. -/
def strBytes (s : String) : Bytes := s.toList.map Char.toNat

theorem pySlice_length (b : Bytes) (lo hi : Nat) :
    (pySlice b lo hi).length = min hi b.length - lo := by
  simp [pySlice]

/-- The fields extracted from `authenticatorData` by
`verify_attestation` step 2 (lines 171-177 of `verify_attestation.py`). -/
structure AuthData where
  rpIdHash : Bytes
  flags : Nat
  signCount : Nat
  aaguid : Bytes
  credIdLen : Nat
  credentialId : Bytes
deriving DecidableEq, Repr

/-- Lines 171-177 of `verify_attestation.py`:

    rp_id_hash = auth_data[:32]
    flags = auth_data[32]
    sign_count = struct.unpack('>I', auth_data[33:37])[0]
    aaguid = auth_data[37:53]
    cred_id_len = struct.unpack('>H', auth_data[53:55])[0]
    credential_id = auth_data[55:55+cred_id_len]

`none` models an exception (IndexError from `auth_data[32]`, or
`struct.error` from a short unpack buffer); slices clamp silently. -/
def parseAuthData (b : Bytes) : Option AuthData :=
  match b[32]? with
  | none => none
  | some flags =>
    match unpackBE4 (pySlice b 33 37) with
    | none => none
    | some sign_count =>
      match unpackBE2 (pySlice b 53 55) with
      | none => none
      | some cred_id_len =>
        some ⟨pySlice b 0 32, flags, sign_count, pySlice b 37 53, cred_id_len,
              pySlice b 55 (55 + cred_id_len)⟩

/-- A 56-byte buffer whose embedded credential-id length (5) exceeds the
single remaining byte. -/
def c3buf : Bytes :=
  List.replicate 32 0 ++ [64] ++ [0, 0, 0, 0] ++ List.replicate 16 0 ++ [0, 5] ++ [9]

/-- Claim C3 (counterexample): a 56-byte buffer which declares
`credentialIdLen = 5` (so 56 < 55 + 5) does NOT fail to parse; the code
silently returns the truncated one-byte credentialId `[9]`. -/
theorem c3_authdata_counterexample :
    c3buf.length = 56 ∧
    (parseAuthData c3buf).map (fun ad => (ad.credIdLen, ad.credentialId)) =
      some (5, [9]) := by
  constructor <;> rfl

/-- Claim C3 (amended): parsing the fixed-offset fields fails (with the
exception surfacing as a generic parse error) exactly when the buffer is
shorter than 55 bytes; for a buffer of at least 55 bytes parsing always
succeeds, with `credentialId` equal to the (clamping) slice
`b[55:55+credIdLen]`, hence silently truncated to the available
`b.length - 55` bytes whenever `b.length < 55 + credIdLen`. -/
theorem c3_authdata_amended :
    ∀ b : Bytes,
      (b.length < 55 → parseAuthData b = none) ∧
      (55 ≤ b.length → ∃ ad, parseAuthData b = some ad ∧
        ad.credentialId = pySlice b 55 (55 + ad.credIdLen) ∧
        ad.credentialId.length = min (55 + ad.credIdLen) b.length - 55) := by
  intro b
  constructor
  · intro hlt
    unfold parseAuthData
    rcases Nat.lt_or_ge b.length 33 with h33 | h33
    · have h : b[32]? = none := by
        rw [List.getElem?_eq_none]
        omega
      rw [h]
    · have h : ∃ f, b[32]? = some f := by
        have h32 : 32 < b.length := by omega
        exact ⟨b[32], List.getElem?_eq_getElem h32⟩
      obtain ⟨f, hf⟩ := h
      rw [hf]
      rcases Nat.lt_or_ge b.length 37 with h37 | h37
      · have h4 : unpackBE4 (pySlice b 33 37) = none := by
          unfold unpackBE4
          rw [if_neg]
          rw [pySlice_length]
          omega
        rw [h4]
      · have h4 : unpackBE2 (pySlice b 53 55) = none := by
          unfold unpackBE2
          rw [if_neg]
          rw [pySlice_length]
          omega
        have h4' : ∃ n, unpackBE4 (pySlice b 33 37) = some n := by
          refine ⟨beNat (pySlice b 33 37), ?_⟩
          unfold unpackBE4
          rw [if_pos]
          rw [pySlice_length]
          omega
        obtain ⟨n, hn⟩ := h4'
        rw [hn, h4]
  · intro hge
    have h32 : 32 < b.length := by omega
    have hf : b[32]? = some b[32] := List.getElem?_eq_getElem h32
    have h4 : unpackBE4 (pySlice b 33 37) = some (beNat (pySlice b 33 37)) := by
      unfold unpackBE4
      rw [if_pos]
      rw [pySlice_length]
      omega
    have h2 : unpackBE2 (pySlice b 53 55) = some (beNat (pySlice b 53 55)) := by
      unfold unpackBE2
      rw [if_pos]
      rw [pySlice_length]
      omega
    have hsome : parseAuthData b =
        some ⟨pySlice b 0 32, b[32], beNat (pySlice b 33 37), pySlice b 37 53,
              beNat (pySlice b 53 55),
              pySlice b 55 (55 + beNat (pySlice b 53 55))⟩ := by
      unfold parseAuthData
      rw [hf, h4, h2]
    exact ⟨_, hsome, rfl, by rw [pySlice_length]⟩

/-- Witness for `c3_authdata_amended` at a concrete 54-byte buffer and a
concrete 87-byte buffer. -/
theorem c3_authdata_amended_witness :
    parseAuthData (List.replicate 54 0) = none ∧
    ∃ ad, parseAuthData (List.replicate 87 1) = some ad ∧
      ad.credentialId = pySlice (List.replicate 87 1) 55 (55 + ad.credIdLen) ∧
      ad.credentialId.length = min (55 + ad.credIdLen) (List.replicate 87 1).length - 55 :=
  ⟨(c3_authdata_amended (List.replicate 54 0)).1 (by decide),
   (c3_authdata_amended (List.replicate 87 1)).2 (by decide)⟩

/-! ### ASN.1 nonce extractor (`extract_nonce_from_extension`, lines 98-136) -/

/-- One length read inside the scanning loop (lines 111-118): short form, or
long form `0x80 | n` followed by `n` big-endian bytes; `none` models the
`break` on a truncated long form. -/
def readLen (lenB : Nat) (rest : Bytes) : Option (Nat × Bytes) :=
  if lenB.land 128 ≠ 0 then
    if lenB.land 127 > rest.length then none
    else some (beNat (rest.take (lenB.land 127)), rest.drop (lenB.land 127))
  else some (lenB, rest)

theorem land128_eq_zero {n : Nat} (h : n < 128) : n.land 128 = 0 := by
  have h7 : n.testBit 7 = false := by
    rw [Nat.testBit_to_div_mod]
    have hd : n / 128 = 0 := Nat.div_eq_of_lt h
    simp [hd]
  have h2 := Nat.and_two_pow n 7
  rw [h7] at h2
  simpa using h2

theorem readLen_suffix {lenB : Nat} {rest : Bytes} {L : Nat} {rest1 : Bytes}
    (h : readLen lenB rest = some (L, rest1)) : rest1 <:+ rest := by
  unfold readLen at h
  split at h
  · split at h
    · exact absurd h (by simp)
    · injection h with h'
      injection h' with _ h2
      exact h2 ▸ ⟨rest.take (lenB.land 127), List.take_append_drop _ rest⟩
  · injection h with h'
    injection h' with _ h2
    exact h2 ▸ List.suffix_refl rest

theorem readLen_length_le {lenB : Nat} {rest : Bytes} {L : Nat} {rest1 : Bytes}
    (h : readLen lenB rest = some (L, rest1)) : rest1.length ≤ rest.length :=
  (readLen_suffix h).length_le

/-- The scanning loop of `find_octet32` (lines 103-131), one constructor step
per iteration.  `recurse` is the depth-increased recursive call made on the
value of a constructed TLV; `steps` bounds the number of loop iterations.
Each iteration consumes at least two bytes of the buffer, so the initial
value `steps = b.length` used below is never exhausted. -/
def loopAux (recurse : Bytes → Option Bytes) : Nat → Bytes → Option Bytes
  | 0, _ => none
  | _ + 1, [] => none
  | _ + 1, [_] => none
  | steps + 1, tag :: lenB :: rest =>
    match readLen lenB rest with
    | none => none
    | some (L, rest1) =>
      if rest1.length < L then none
      else if tag = 4 ∧ (rest1.take L).length = 32 then some (rest1.take L)
      else if tag.land 32 ≠ 0 ∨ tag = 48 ∨ tag = 49 ∨ tag = 4 then
        match recurse (rest1.take L) with
        | some r => if r = [] then loopAux recurse steps (rest1.drop L) else some r
        | none => loopAux recurse steps (rest1.drop L)
      else loopAux recurse steps (rest1.drop L)

/-- `find_octet32` (lines 100-131).  `fuel` stands for `11 - depth`, so the
Python guard `depth > 10` is `fuel = 0`; the top-level call has `depth = 0`,
i.e. `fuel = 11`. -/
def find_octet32 : Nat → Bytes → Option Bytes
  | 0, _ => none
  | fuel + 1, b => if b.length < 2 then none else loopAux (find_octet32 fuel) b.length b

/-- `extract_nonce_from_extension` (lines 98-136); `none` models the raised
`ValueError("Could not find 32-byte nonce in extension")`. -/
def extract_nonce_from_extension (payload : Bytes) : Option Bytes :=
  find_octet32 11 payload

theorem loopAux_cons (recurse : Bytes → Option Bytes) (steps tag lenB : Nat)
    (rest : Bytes) :
    loopAux recurse (steps + 1) (tag :: lenB :: rest) =
      match readLen lenB rest with
      | none => none
      | some (L, rest1) =>
        if rest1.length < L then none
        else if tag = 4 ∧ (rest1.take L).length = 32 then some (rest1.take L)
        else if tag.land 32 ≠ 0 ∨ tag = 48 ∨ tag = 49 ∨ tag = 4 then
          match recurse (rest1.take L) with
          | some r => if r = [] then loopAux recurse steps (rest1.drop L) else some r
          | none => loopAux recurse steps (rest1.drop L)
        else loopAux recurse steps (rest1.drop L) := rfl

theorem find_octet32_succ (fuel : Nat) (b : Bytes) :
    find_octet32 (fuel + 1) b =
      if b.length < 2 then none else loopAux (find_octet32 fuel) b.length b := rfl

theorem loopAux_cons_none (recurse : Bytes → Option Bytes) (steps tag lenB : Nat)
    (rest : Bytes) (h : readLen lenB rest = none) :
    loopAux recurse (steps + 1) (tag :: lenB :: rest) = none := by
  rw [loopAux_cons, h]

theorem loopAux_cons_some (recurse : Bytes → Option Bytes) (steps tag lenB L : Nat)
    (rest rest1 : Bytes) (h : readLen lenB rest = some (L, rest1)) :
    loopAux recurse (steps + 1) (tag :: lenB :: rest) =
      (if rest1.length < L then none
       else if tag = 4 ∧ (rest1.take L).length = 32 then some (rest1.take L)
       else if tag.land 32 ≠ 0 ∨ tag = 48 ∨ tag = 49 ∨ tag = 4 then
         match recurse (rest1.take L) with
         | some r => if r = [] then loopAux recurse steps (rest1.drop L) else some r
         | none => loopAux recurse steps (rest1.drop L)
       else loopAux recurse steps (rest1.drop L)) := by
  rw [loopAux_cons, h]

theorem infix_cons_cons {v rest : Bytes} (a b : Nat) (h : v <:+: rest) :
    v <:+: a :: b :: rest := by
  obtain ⟨s, t, e⟩ := h
  exact ⟨a :: b :: s, t, by simp [List.cons_append, e]⟩

theorem take_infixOf (l : Bytes) (n : Nat) : l.take n <:+: l :=
  ⟨[], l.drop n, by simp⟩

theorem drop_infixOf (l : Bytes) (n : Nat) : l.drop n <:+: l :=
  ⟨l.take n, [], by simp⟩

theorem takePre (l : Bytes) (n : Nat) : l.take n <+: l :=
  ⟨l.drop n, List.take_append_drop n l⟩

theorem preConsCons {l₁ l₂ : Bytes} (a b : Nat) (h : l₁ <+: l₂) :
    a :: b :: l₁ <+: a :: b :: l₂ := by
  obtain ⟨t, ht⟩ := h
  exact ⟨t, by simp [List.cons_append, ht]⟩

theorem preAppendLeft (x : Bytes) {l₁ l₂ : Bytes} (h : l₁ <+: l₂) :
    x ++ l₁ <+: x ++ l₂ := by
  obtain ⟨t, ht⟩ := h
  exact ⟨t, by rw [List.append_assoc, ht]⟩

/-- `w` is an OCTET STRING TLV holding the 32-byte value `v`, exactly as the
scanning loop accepts one (lines 107-125): tag byte `0x04`, then either the
short-form length byte 32, or a long-form length (`0x80 | n` followed by
`n` big-endian bytes decoding to 32), then the value. -/
def octetString32 (w v : Bytes) : Prop :=
  w = 4 :: 32 :: v ∨
  ∃ (lenB : Nat) (lbs : Bytes), w = 4 :: lenB :: (lbs ++ v) ∧
    lenB.land 128 ≠ 0 ∧ lbs.length = lenB.land 127 ∧ beNat lbs = 32

/-- The two shapes a successful `readLen` can take. -/
theorem readLen_form {lenB : Nat} {rest : Bytes} {L : Nat} {rest1 : Bytes}
    (h : readLen lenB rest = some (L, rest1)) :
    (lenB.land 128 = 0 ∧ L = lenB ∧ rest1 = rest) ∨
    (lenB.land 128 ≠ 0 ∧ lenB.land 127 ≤ rest.length ∧
      rest1 = rest.drop (lenB.land 127) ∧ L = beNat (rest.take (lenB.land 127))) := by
  unfold readLen at h
  split at h
  · split at h
    · exact absurd h (by simp)
    · injection h with h'
      injection h' with h1 h2
      right
      exact ⟨by assumption, by omega, h2.symm, h1.symm⟩
  · injection h with h'
    injection h' with h1 h2
    left
    exact ⟨by omega, h1.symm, h2.symm⟩

theorem loopAux_sound (recurse : Bytes → Option Bytes)
    (hrec : ∀ b v, recurse b = some v →
      v.length = 32 ∧ ∃ w, octetString32 w v ∧ w <:+: b) :
    ∀ (steps : Nat) (b v : Bytes), loopAux recurse steps b = some v →
      v.length = 32 ∧ ∃ w, octetString32 w v ∧ w <:+: b := by
  intro steps
  induction steps with
  | zero => intro b v h; simp [loopAux] at h
  | succ n ih =>
    intro b v h
    match b with
    | [] => simp [loopAux] at h
    | [_] => simp [loopAux] at h
    | tag :: lenB :: rest =>
      cases hr : readLen lenB rest with
      | none => rw [loopAux_cons_none recurse n tag lenB rest hr] at h; exact absurd h (by simp)
      | some p =>
        obtain ⟨L, rest1⟩ := p
        rw [loopAux_cons_some recurse n tag lenB L rest rest1 hr] at h
        have hsuf : rest1 <:+ rest := readLen_suffix hr
        by_cases h1 : rest1.length < L
        · rw [if_pos h1] at h; exact absurd h (by simp)
        rw [if_neg h1] at h
        by_cases h2 : tag = 4 ∧ (rest1.take L).length = 32
        · rw [if_pos h2] at h
          injection h with h'
          subst h'
          obtain ⟨htag, hlen32⟩ := h2
          subst htag
          have hL : L = 32 := by
            rw [List.length_take] at hlen32
            omega
          subst hL
          rcases readLen_form hr with ⟨hz, hLl, hre⟩ | ⟨hnz, hnle, hr1, hLbe⟩
          · subst hre
            have hlb : lenB = 32 := hLl.symm
            subst hlb
            exact ⟨hlen32, 4 :: 32 :: rest1.take 32, Or.inl rfl,
              (preConsCons 4 32 (takePre rest1 32)).isInfix⟩
          · subst hr1
            refine ⟨hlen32,
              4 :: lenB :: (rest.take (lenB.land 127) ++
                (rest.drop (lenB.land 127)).take 32),
              Or.inr ⟨lenB, rest.take (lenB.land 127), rfl, hnz, ?_, hLbe.symm⟩, ?_⟩
            · rw [List.length_take]
              omega
            · have hp : rest.take (lenB.land 127) ++
                  (rest.drop (lenB.land 127)).take 32 <+: rest := by
                have hq := preAppendLeft (rest.take (lenB.land 127))
                  (takePre (rest.drop (lenB.land 127)) 32)
                rwa [List.take_append_drop] at hq
              exact (preConsCons 4 lenB hp).isInfix
        rw [if_neg h2] at h
        have hcont : ∀ (h' : loopAux recurse n (rest1.drop L) = some v),
            v.length = 32 ∧ ∃ w, octetString32 w v ∧ w <:+: tag :: lenB :: rest := by
          intro h'
          obtain ⟨hl, w, hw, hi⟩ := ih (rest1.drop L) v h'
          exact ⟨hl, w, hw, infix_cons_cons _ _
            ((hi.trans (drop_infixOf rest1 L)).trans hsuf.isInfix)⟩
        by_cases h3 : tag.land 32 ≠ 0 ∨ tag = 48 ∨ tag = 49 ∨ tag = 4
        · rw [if_pos h3] at h
          split at h
          next r hrc =>
            by_cases h4 : r = []
            · rw [if_pos h4] at h; exact hcont h
            · rw [if_neg h4] at h
              injection h with h'
              subst h'
              obtain ⟨hl, w, hw, hi⟩ := hrec _ _ hrc
              exact ⟨hl, w, hw, infix_cons_cons _ _
                ((hi.trans (take_infixOf rest1 L)).trans hsuf.isInfix)⟩
          next hrc => exact hcont h
        · rw [if_neg h3] at h
          exact hcont h

theorem find_octet32_sound :
    ∀ (fuel : Nat) (b v : Bytes), find_octet32 fuel b = some v →
      v.length = 32 ∧ ∃ w, octetString32 w v ∧ w <:+: b := by
  intro fuel
  induction fuel with
  | zero => intro b v h; simp [find_octet32] at h
  | succ n ih =>
    intro b v h
    rw [find_octet32_succ] at h
    by_cases hlen : b.length < 2
    · rw [if_pos hlen] at h; exact absurd h (by simp)
    · rw [if_neg hlen] at h
      exact loopAux_sound (find_octet32 n) ih b.length b v h

/-- `k` nested SEQUENCE (tag `0x30`, short-form length) wrappers. -/
def wrapSeq : Nat → Bytes → Bytes
  | 0, b => b
  | k + 1, b => 48 :: (wrapSeq k b).length :: wrapSeq k b

theorem wrapSeq_length (k : Nat) (b : Bytes) :
    (wrapSeq k b).length = b.length + 2 * k := by
  induction k with
  | zero => rfl
  | succ k ih => simp [wrapSeq, ih]; omega

theorem loopAux_wrap_base (recurse : Bytes → Option Bytes) (steps : Nat)
    (v : Bytes) (hv : v.length = 32) :
    loopAux recurse (steps + 1) (4 :: 32 :: v) = some v := by
  have hr : readLen 32 v = some (32, v) := by
    unfold readLen
    rw [if_neg (by decide)]
  rw [loopAux_cons_some recurse steps 4 32 32 v v hr]
  rw [if_neg (by omega : ¬ v.length < 32)]
  have ht : v.take 32 = v := by
    rw [← hv]
    exact List.take_length v
  rw [if_pos ⟨rfl, by rw [ht, hv]⟩, ht]

theorem loopAux_wrap_step (recurse : Bytes → Option Bytes) (steps : Nat)
    (W v : Bytes) (hW : W.length < 128) (hrec : recurse W = some v)
    (hv : v.length = 32) :
    loopAux recurse (steps + 1) (48 :: W.length :: W) = some v := by
  have hr : readLen W.length W = some (W.length, W) := by
    unfold readLen
    rw [if_neg (by simp [land128_eq_zero hW])]
  rw [loopAux_cons_some recurse steps 48 W.length W.length W W hr]
  rw [if_neg (by omega : ¬ W.length < W.length)]
  have ht : W.take W.length = W := List.take_length W
  rw [if_neg (by simp), if_pos (Or.inr (Or.inl rfl)), ht, hrec]
  show (if v = [] then loopAux recurse steps (W.drop W.length) else some v) = some v
  rw [if_neg (by intro he; rw [he] at hv; simp at hv)]

theorem find_wrap :
    ∀ (k fuel : Nat) (v : Bytes), v.length = 32 → k < fuel → k ≤ 46 →
      find_octet32 fuel (wrapSeq k (4 :: 32 :: v)) = some v := by
  intro k
  induction k with
  | zero =>
    intro fuel v hv hk _
    match fuel, hk with
    | fuel + 1, _ =>
      rw [show wrapSeq 0 (4 :: 32 :: v) = 4 :: 32 :: v from rfl]
      rw [find_octet32_succ, if_neg (by simp)]
      rw [show (4 :: 32 :: v).length = 33 + 1 by simp [hv]]
      exact loopAux_wrap_base _ 33 v hv
  | succ k ih =>
    intro fuel v hv hk hk46
    match fuel, hk with
    | fuel + 1, _ =>
      have hlen : (wrapSeq k (4 :: 32 :: v)).length = 34 + 2 * k := by
        rw [wrapSeq_length]
        simp only [List.length_cons, hv]
      rw [show wrapSeq (k + 1) (4 :: 32 :: v) =
            48 :: (wrapSeq k (4 :: 32 :: v)).length :: wrapSeq k (4 :: 32 :: v) from rfl]
      rw [find_octet32_succ, if_neg (by simp)]
      rw [show (48 :: (wrapSeq k (4 :: 32 :: v)).length :: wrapSeq k (4 :: 32 :: v)).length
            = (35 + 2 * k) + 1 by simp only [List.length_cons, hlen]; omega]
      exact loopAux_wrap_step _ _ _ v (by rw [hlen]; omega)
        (ih fuel v hv (by omega) (by omega)) hv

/-- Claim C6: a 32-byte value wrapped (as an OCTET STRING TLV) in 0-10 nested
SEQUENCE layers is always recovered exactly; whatever the extractor returns
is a 32-byte value carried by an OCTET STRING TLV
(tag `0x04`, length decoding to 32) occurring inside the payload — hence a
payload containing no 32-byte OCTET STRING fails with `NonceNotFound`
(`none`), stated both as the soundness form and as the contrapositive; and a
malformed truncated length field terminates the scan with that failure
rather than an unhandled crash (witnessed by the truncated long-form payload
`[48, 133]`, and by totality of the Lean model). -/
theorem c6_nonce_extractor :
    (∀ (v : Bytes) (k : Nat), v.length = 32 → k ≤ 10 →
      extract_nonce_from_extension (wrapSeq k (4 :: 32 :: v)) = some v) ∧
    (∀ (p v : Bytes), extract_nonce_from_extension p = some v →
      v.length = 32 ∧ ∃ w, octetString32 w v ∧ w <:+: p) ∧
    (∀ p : Bytes, (¬ ∃ w v, octetString32 w v ∧ w <:+: p) →
      extract_nonce_from_extension p = none) ∧
    extract_nonce_from_extension [48, 133] = none := by
  refine ⟨?_, ?_, ?_, by decide⟩
  · intro v k hv hk
    exact find_wrap k 11 v hv (by omega) (by omega)
  · intro p v h
    exact find_octet32_sound 11 p v h
  · intro p hno
    cases hx : extract_nonce_from_extension p with
    | none => rfl
    | some v =>
      obtain ⟨_, w, hw, hi⟩ := find_octet32_sound 11 p v hx
      exact absurd ⟨w, v, hw, hi⟩ hno

/-- Witness for `c6_nonce_extractor`: three nested SEQUENCE layers around the
constant 32-byte value `7, 7, ...`. -/
theorem c6_nonce_extractor_witness :
    extract_nonce_from_extension (wrapSeq 3 (4 :: 32 :: List.replicate 32 7)) =
      some (List.replicate 32 7) :=
  c6_nonce_extractor.1 (List.replicate 32 7) 3 (by decide) (by decide)

/-! ### Public key DER codec (`build_der_public_key`, lines 285-318) -/

/-- `der_len` (lines 298-304).  (For `length >= 65536` the Python `bytes`
constructor would raise; no caller comes near that range, and the claim only
covers lengths up to 65535.) -/
def der_len (length : Nat) : Bytes :=
  if length < 128 then [length]
  else if length < 256 then [129, length]
  else [130, length / 256, length % 256]

/-- OID 1.2.840.10045.2.1 (line 295). -/
def ec_public_key_oid : Bytes := [42, 134, 72, 206, 61, 2, 1]

/-- OID 1.2.840.10045.3.1.7 (line 296). -/
def prime256v1_oid : Bytes := [42, 134, 72, 206, 61, 3, 1, 7]

/-- `build_der_public_key` (lines 285-318). -/
def build_der_public_key (x y : Bytes) : Bytes :=
  let point := 4 :: (x ++ y)
  let algo_seq := (48 :: der_len (ec_public_key_oid.length + prime256v1_oid.length + 4))
    ++ ((6 :: der_len ec_public_key_oid.length) ++ ec_public_key_oid)
    ++ ((6 :: der_len prime256v1_oid.length) ++ prime256v1_oid)
  let bit_string := (3 :: der_len (point.length + 1)) ++ (0 :: point)
  let inner := algo_seq ++ bit_string
  (48 :: der_len inner.length) ++ inner

/-- One DER TLV read (tag byte, length per `readLen`, value, remainder). -/
def readTLV (b : Bytes) : Option (Nat × Bytes × Bytes) :=
  match b with
  | tag :: lenB :: rest =>
    match readLen lenB rest with
    | none => none
    | some (L, rest1) =>
      if L ≤ rest1.length then some (tag, rest1.take L, rest1.drop L) else none
  | _ => none

/-- Modelled from the spec: the standard parse of a DER
`SubjectPublicKeyInfo` for an EC public key (the `load_der_public_key`
library primitive, which is outside this repository): an outer SEQUENCE
containing an algorithm-identifier SEQUENCE (the EC-public-key OID and the
curve OID) followed by a BIT STRING whose content is a zero unused-bits byte
and the uncompressed point `0x04 || x || y`. -/
def parseSPKI (b : Bytes) : Option (Bytes × Bytes) :=
  match readTLV b with
  | none => none
  | some (t0, inner, rest0) =>
    if t0 ≠ 48 ∨ rest0 ≠ [] then none
    else
      match readTLV inner with
      | none => none
      | some (t1, algo, rest1) =>
        if t1 ≠ 48 then none
        else
          match readTLV algo with
          | none => none
          | some (t2, oid1, arest) =>
            match readTLV arest with
            | none => none
            | some (t3, oid2, arest2) =>
              if t2 ≠ 6 ∨ t3 ≠ 6 ∨ oid1 ≠ ec_public_key_oid ∨
                  oid2 ≠ prime256v1_oid ∨ arest2 ≠ [] then none
              else
                match readTLV rest1 with
                | none => none
                | some (t4, bits, rest2) =>
                  if t4 ≠ 3 ∨ rest2 ≠ [] then none
                  else
                    match bits with
                    | b0 :: b1 :: pt =>
                      if b0 = 0 ∧ b1 = 4 ∧ pt.length = 64 then
                        some (pt.take 32, pt.drop 32)
                      else none
                    | _ => none

theorem readTLV_short (tag lenB : Nat) (content rest : Bytes)
    (hlen : content.length = lenB) (hl : lenB < 128) :
    readTLV (tag :: lenB :: (content ++ rest)) = some (tag, content, rest) := by
  have hr : readLen lenB (content ++ rest) = some (lenB, content ++ rest) := by
    unfold readLen
    rw [if_neg (by simp [land128_eq_zero hl])]
  have hle : lenB ≤ content.length + rest.length := by omega
  simp [readTLV, hr, hle, List.take_left' hlen, List.drop_left' hlen]

theorem readTLV_exact (tag lenB : Nat) (content : Bytes)
    (hlen : content.length = lenB) (hl : lenB < 128) :
    readTLV (tag :: lenB :: content) = some (tag, content, []) := by
  have h := readTLV_short tag lenB content [] hlen hl
  rwa [List.append_nil] at h

/-- Claim C7: `build_der_public_key` composed with the standard
SubjectPublicKeyInfo parse recovers the same coordinates; and the DER length
encoding uses one byte below 128, `0x81` + one byte for 128-255, `0x82` +
two big-endian bytes for 256-65535. -/
theorem c7_der_roundtrip :
    (∀ x y : Bytes, x.length = 32 → y.length = 32 →
      parseSPKI (build_der_public_key x y) = some (x, y)) ∧
    (∀ n : Nat,
      (n < 128 → der_len n = [n]) ∧
      (128 ≤ n → n < 256 → der_len n = [129, n]) ∧
      (256 ≤ n → n < 65536 → der_len n = [130, n / 256, n % 256])) := by
  constructor
  · intro x y hx hy
    have hxy : (x ++ y).length = 64 := by simp [hx, hy]
    have hb : build_der_public_key x y =
        48 :: 89 :: (48 :: 19 ::
          ([6, 7, 42, 134, 72, 206, 61, 2, 1, 6, 8, 42, 134, 72, 206, 61, 3, 1, 7] ++
            (3 :: 66 :: (0 :: 4 :: (x ++ y))))) := by
      unfold build_der_public_key
      simp [der_len, ec_public_key_oid, prime256v1_oid, List.length_append, hx, hy]
    have h1 : readTLV (build_der_public_key x y) =
        some (48, 48 :: 19 ::
          ([6, 7, 42, 134, 72, 206, 61, 2, 1, 6, 8, 42, 134, 72, 206, 61, 3, 1, 7] ++
            (3 :: 66 :: (0 :: 4 :: (x ++ y)))), []) := by
      rw [hb]
      exact readTLV_exact 48 89 _ (by simp [List.length_append, hxy]) (by omega)
    have h2 : readTLV (48 :: 19 ::
        ([6, 7, 42, 134, 72, 206, 61, 2, 1, 6, 8, 42, 134, 72, 206, 61, 3, 1, 7] ++
          (3 :: 66 :: (0 :: 4 :: (x ++ y))))) =
        some (48, [6, 7, 42, 134, 72, 206, 61, 2, 1, 6, 8, 42, 134, 72, 206, 61, 3, 1, 7],
          3 :: 66 :: (0 :: 4 :: (x ++ y))) :=
      readTLV_short 48 19 _ _ (by decide) (by omega)
    have h3 : readTLV [6, 7, 42, 134, 72, 206, 61, 2, 1, 6, 8, 42, 134, 72, 206, 61, 3, 1, 7] =
        some (6, [42, 134, 72, 206, 61, 2, 1], [6, 8, 42, 134, 72, 206, 61, 3, 1, 7]) := by
      decide
    have h4 : readTLV [6, 8, 42, 134, 72, 206, 61, 3, 1, 7] =
        some (6, [42, 134, 72, 206, 61, 3, 1, 7], []) := by decide
    have h5 : readTLV (3 :: 66 :: (0 :: 4 :: (x ++ y))) =
        some (3, 0 :: 4 :: (x ++ y), []) :=
      readTLV_exact 3 66 _ (by simp [hxy]) (by omega)
    have htake : (x ++ y).take 32 = x := List.take_left' hx
    have hdrop : (x ++ y).drop 32 = y := List.drop_left' hx
    simp only [parseSPKI, h1, h2, h3, h4, h5]
    simp [ec_public_key_oid, prime256v1_oid, hxy, htake, hdrop]
  · intro n
    refine ⟨?_, ?_, ?_⟩
    · intro h
      unfold der_len
      rw [if_pos h]
    · intro h1 h2
      unfold der_len
      rw [if_neg (by omega), if_pos h2]
    · intro h1 h2
      unfold der_len
      rw [if_neg (by omega), if_neg (by omega)]

/-- Witness for `c7_der_roundtrip` at two concrete 32-byte coordinate
vectors and concrete lengths in each DER range. -/
theorem c7_der_roundtrip_witness :
    parseSPKI (build_der_public_key (List.replicate 32 1) (List.replicate 32 2)) =
      some (List.replicate 32 1, List.replicate 32 2) ∧
    der_len 5 = [5] ∧ der_len 200 = [129, 200] ∧ der_len 515 = [130, 2, 3] :=
  ⟨c7_der_roundtrip.1 (List.replicate 32 1) (List.replicate 32 2) (by decide) (by decide),
   (c7_der_roundtrip.2 5).1 (by decide),
   (c7_der_roundtrip.2 200).2.1 (by decide) (by decide),
   (c7_der_roundtrip.2 515).2.2 (by decide) (by decide)⟩

/-! ### Attestation verifier (`verify_attestation`, lines 139-282) -/

/-- Abstraction of a loaded X.509 certificate: the fields
`verify_attestation` consumes — whether the public key is EC
(`isinstance(..., ec.EllipticCurvePublicKey)`), the 32-byte big-endian
coordinate encodings `nums.x.to_bytes(32)` / `nums.y.to_bytes(32)`, and the
Apple nonce-extension payload (`none` models `x509.ExtensionNotFound`). -/
structure Cert where
  isEC : Bool
  pubX : Bytes
  pubY : Bytes
  nonceExt : Option Bytes

/-- Library primitives consumed by `verify_attestation`: SHA-256, base64
encoding, and the two chain signature checks
(`root_ca.public_key().verify(intermediate.signature, ...)`, with the
pinned Apple root folded in, and
`intermediate.public_key().verify(leaf_cert.signature, ...)`). -/
structure Oracle where
  sha256 : Bytes → Bytes
  b64 : Bytes → String
  interSigValid : Cert → Bool
  leafSigValid : Cert → Cert → Bool

/-- The decoded CBOR attestation container: `att.get('fmt')`,
`att.get('attStmt', {}).get('x5c', [])` (an entry is `none` when
`load_der_x509_certificate` would raise on it), and `att.get('authData')`.
The whole container is `none` when base64 or CBOR decoding raises. -/
structure AttContainer where
  fmt : Option String
  x5c : List (Option Cert)
  authData : Option Bytes

/-- `VerificationResult` (lines 54-63). -/
structure VerificationResult where
  ok : Bool
  public_key_uncompressed : Option Bytes
  public_key_x : Option Bytes
  public_key_y : Option Bytes
  key_id : Option Bytes
  key_id_b64 : Option String
  credential_id : Option Bytes
  errors : List String

def signCountMsg (n : Nat) : String := "signCount should be 0, got " ++ toString n

def aaguidMsg (env : String) : String := "aaguid mismatch (expected " ++ env ++ ")"

def invalidFormatMsg : Option String → String
  | none => "Invalid format: None"
  | some s => "Invalid format: " ++ s

/-- Line 193: `b"appattestdevelop"` for dev, `b"appattest" + b"\x00" * 7`
for prod, as byte values. -/
def expectedAaguid (env : String) : Bytes :=
  if env = "dev" then
    [97, 112, 112, 97, 116, 116, 101, 115, 116, 100, 101, 118, 101, 108, 111, 112]
  else
    [97, 112, 112, 97, 116, 116, 101, 115, 116, 0, 0, 0, 0, 0, 0, 0]

/-- Steps 3-6 (lines 179-195): rpIdHash, AT flag, signCount and aaguid
checks, appending to `errors` in code order. -/
def structuralErrors (o : Oracle) (ad : AuthData) (team_id bundle_id env : String) :
    List String :=
  (if ad.rpIdHash ≠ o.sha256 (strBytes (team_id ++ "." ++ bundle_id))
   then ["rpIdHash mismatch"] else [])
  ++ (if ad.flags.land 64 = 0 then ["AT flag not set"] else [])
  ++ (if ad.signCount ≠ 0 then [signCountMsg ad.signCount] else [])
  ++ (if ad.aaguid ≠ expectedAaguid env then [aaguidMsg env] else [])

/-- Step 7 signature checks (lines 202-219), each in its own
`try`/`except`, in code order. -/
def sigErrors (o : Oracle) (inter leaf : Cert) : List String :=
  (if o.interSigValid inter then [] else ["Intermediate cert signature invalid"])
  ++ (if o.leafSigValid inter leaf then [] else ["Leaf cert signature invalid"])

/-- Step 10 (lines 238-266): nonce extension lookup, ASN.1 extraction and
the two-candidate comparison, inside one `try`/`except`. -/
def nonceCheckErrors (o : Oracle) (leaf : Cert) (auth_data challenge : Bytes) :
    List String :=
  match leaf.nonceExt with
  | none => ["Nonce extension not found"]
  | some payload =>
    match extract_nonce_from_extension payload with
    | none => ["Nonce verification error: Could not find 32-byte nonce in extension"]
    | some cert_nonce =>
      if cert_nonce = o.sha256 (auth_data ++ challenge) then []
      else if cert_nonce = o.sha256 (auth_data ++ o.sha256 challenge) then []
      else ["Nonce mismatch"]

/-- Steps 8-10 and the final result (lines 221-278), reached once both
chain certificates loaded; note the early `return` at line 225 when the
leaf key is not EC. -/
def afterCerts (o : Oracle) (ad : AuthData) (auth_data challenge : Bytes)
    (team_id bundle_id env : String) (leaf inter : Cert) : VerificationResult :=
  let errs := structuralErrors o ad team_id bundle_id env ++ sigErrors o inter leaf
  if ¬ leaf.isEC then
    ⟨false, none, none, none, none, none, some ad.credentialId,
     errs ++ ["Leaf cert public key is not EC"]⟩
  else
    let uncompressed := 4 :: (leaf.pubX ++ leaf.pubY)
    let key_id := o.sha256 uncompressed
    let errs2 := errs ++
      (if ad.credentialId ≠ key_id then ["credentialId != SHA256(publicKey)"] else [])
    let errs3 := errs2 ++ nonceCheckErrors o leaf auth_data challenge
    ⟨errs3.isEmpty, some uncompressed, some leaf.pubX, some leaf.pubY, some key_id,
     some (o.b64 key_id), some ad.credentialId, errs3⟩

/-- The body of the `try` block of `verify_attestation` (lines 153-278).
An `Except.error` models a raised exception and carries the errors
accumulated before the raising statement (the handler at line 281 appends
to that same list) together with the exception message. -/
def verifyBody (o : Oracle) (decoded : Option AttContainer) (challenge : Bytes)
    (team_id bundle_id env : String) :
    Except (List String × String) VerificationResult :=
  match decoded with
  | none => .error ([], "invalid attestation encoding")
  | some att =>
    if att.fmt ≠ some "apple-appattest" then
      .ok ⟨false, none, none, none, none, none, none, [invalidFormatMsg att.fmt]⟩
    else if att.x5c.length < 2 then
      .ok ⟨false, none, none, none, none, none, none, ["Certificate chain too short"]⟩
    else
      match att.authData with
      | none => .error ([], "authenticatorData missing")
      | some auth_data =>
        match parseAuthData auth_data with
        | none => .error ([], "authenticatorData too short")
        | some ad =>
          match att.x5c[0]?, att.x5c[1]? with
          | some (some leaf), some (some inter) =>
            .ok (afterCerts o ad auth_data challenge team_id bundle_id env leaf inter)
          | some none, _ =>
            .error (structuralErrors o ad team_id bundle_id env,
                    "leaf certificate load failed")
          | _, _ =>
            .error (structuralErrors o ad team_id bundle_id env,
                    "intermediate certificate load failed")

/-- `verify_attestation` (lines 139-282): the `try`/`except Exception`
wrapper around `verifyBody`; the handler appends `Parse error: ...` to the
already-accumulated errors and returns a failed result (lines 280-282). -/
def verify_attestation (o : Oracle) (decoded : Option AttContainer) (challenge : Bytes)
    (team_id bundle_id env : String) : VerificationResult :=
  match verifyBody o decoded challenge team_id bundle_id env with
  | .ok r => r
  | .error (errs, e) =>
    ⟨false, none, none, none, none, none, none, errs ++ ["Parse error: " ++ e]⟩

theorem afterCerts_ok_eq (o : Oracle) (ad : AuthData) (auth_data challenge : Bytes)
    (team_id bundle_id env : String) (leaf inter : Cert) :
    (afterCerts o ad auth_data challenge team_id bundle_id env leaf inter).ok =
    (afterCerts o ad auth_data challenge team_id bundle_id env leaf inter).errors.isEmpty := by
  unfold afterCerts
  by_cases h : leaf.isEC <;> simp [h]

theorem verifyBody_ok_eq (o : Oracle) (decoded : Option AttContainer) (challenge : Bytes)
    (team_id bundle_id env : String) (r : VerificationResult)
    (h : verifyBody o decoded challenge team_id bundle_id env = .ok r) :
    r.ok = r.errors.isEmpty := by
  unfold verifyBody at h
  repeat' split at h
  all_goals first
    | (injection h with h'; subst h'; simp [afterCerts_ok_eq])
    | simp at h

theorem va_ok_eq (o : Oracle) (decoded : Option AttContainer) (challenge : Bytes)
    (team_id bundle_id env : String) :
    (verify_attestation o decoded challenge team_id bundle_id env).ok =
    (verify_attestation o decoded challenge team_id bundle_id env).errors.isEmpty := by
  unfold verify_attestation
  cases hb : verifyBody o decoded challenge team_id bundle_id env with
  | ok r =>
    exact verifyBody_ok_eq o decoded challenge team_id bundle_id env r hb
  | error p =>
    obtain ⟨es, m⟩ := p
    simp

/-- Constant 32-byte string used by the concrete test inputs. -/
def c32 : Bytes := List.replicate 32 0

/-- A concrete oracle: SHA-256 as the constant `c32`, all signatures
accepted. -/
def oracle0 : Oracle := ⟨fun _ => c32, fun _ => "", fun _ => true, fun _ _ => true⟩

/-- A concrete EC leaf certificate whose nonce extension carries the
OCTET STRING TLV of `c32`. -/
def leaf0 : Cert := ⟨true, List.replicate 32 1, List.replicate 32 2, some (4 :: 32 :: c32)⟩

/-- A concrete leaf certificate with a non-EC key and no nonce
extension. -/
def leafNonEC : Cert := ⟨false, [], [], none⟩

/-- Concrete authenticatorData consistent with `oracle0` for `env = dev`:
rpIdHash `c32`, AT flag set, signCount 0, dev aaguid, 32-byte credentialId
equal to `c32`. -/
def authData0 : Bytes :=
  c32 ++ [64] ++ [0, 0, 0, 0] ++ expectedAaguid "dev" ++ [0, 32] ++ c32

/-- A container whose chain holds three certificates. -/
def att3 : AttContainer :=
  ⟨some "apple-appattest", [some leaf0, some leaf0, some leaf0], some authData0⟩

/-- A container whose leaf certificate key is not EC. -/
def att8 : AttContainer :=
  ⟨some "apple-appattest", [some leafNonEC, some leaf0], some authData0⟩

/-- Claim C1 (counterexample): a chain of three certificates — a length
different from 2 — is not rejected at all: the code only checks
`len(x5c) < 2`, uses the first two certificates, and here verifies
successfully (`ok = true` with no errors), contradicting both the claimed
immediate chain-length error and the claimed `ok = false`. -/
theorem c1_chain_length_counterexample :
    att3.x5c.length = 3 ∧
    (verify_attestation oracle0 (some att3) [1, 2, 3] "T" "B" "dev").ok = true ∧
    (verify_attestation oracle0 (some att3) [1, 2, 3] "T" "B" "dev").errors = [] := by
  refine ⟨rfl, ?_, ?_⟩ <;> rfl

/-- Claim C1 (amended): only a chain with fewer than 2 certificates is
rejected immediately — with the single error `Certificate chain too short`
and no further checks — and yields `ok = false`; a chain longer than 2 is
not a length error (the code proceeds with the first two certificates). -/
theorem c1_chain_length_amended :
    ∀ (o : Oracle) (att : AttContainer) (challenge : Bytes)
      (team_id bundle_id env : String),
      att.fmt = some "apple-appattest" → att.x5c.length < 2 →
      verify_attestation o (some att) challenge team_id bundle_id env =
        ⟨false, none, none, none, none, none, none, ["Certificate chain too short"]⟩ := by
  intro o att challenge team_id bundle_id env hfmt hlen
  unfold verify_attestation verifyBody
  simp [hfmt, hlen]

/-- Witness for `c1_chain_length_amended`: an empty chain. -/
theorem c1_chain_length_amended_witness :
    verify_attestation oracle0 (some ⟨some "apple-appattest", [], some authData0⟩)
        [] "T" "B" "dev" =
      ⟨false, none, none, none, none, none, none, ["Certificate chain too short"]⟩ :=
  c1_chain_length_amended oracle0 ⟨some "apple-appattest", [], some authData0⟩
    [] "T" "B" "dev" rfl (by decide)

/-- Claim C4: (1) for an attestation whose only defect is `signCount = 1`,
the result's error list is exactly the `SignCountInvalid` message — every
other check still ran and contributed nothing — and `ok = false`;
(2) in general `ok = true` iff the error list is empty. -/
theorem c4_accumulation :
    (∀ (o : Oracle) (att : AttContainer) (auth_data : Bytes) (ad : AuthData)
       (challenge : Bytes) (team_id bundle_id env : String) (leaf inter : Cert),
      att.fmt = some "apple-appattest" →
      att.x5c = [some leaf, some inter] →
      att.authData = some auth_data →
      parseAuthData auth_data = some ad →
      ad.rpIdHash = o.sha256 (strBytes (team_id ++ "." ++ bundle_id)) →
      ad.flags.land 64 ≠ 0 →
      ad.signCount = 1 →
      ad.aaguid = expectedAaguid env →
      o.interSigValid inter = true →
      o.leafSigValid inter leaf = true →
      leaf.isEC = true →
      ad.credentialId = o.sha256 (4 :: (leaf.pubX ++ leaf.pubY)) →
      nonceCheckErrors o leaf auth_data challenge = [] →
      (verify_attestation o (some att) challenge team_id bundle_id env).errors =
          [signCountMsg 1] ∧
        (verify_attestation o (some att) challenge team_id bundle_id env).ok = false) ∧
    (∀ (o : Oracle) (decoded : Option AttContainer) (challenge : Bytes)
       (team_id bundle_id env : String),
      (verify_attestation o decoded challenge team_id bundle_id env).ok = true ↔
      (verify_attestation o decoded challenge team_id bundle_id env).errors = []) := by
  constructor
  · intro o att auth_data ad challenge team_id bundle_id env leaf inter
      hfmt hx5c hAD hparse hrp hflag hsc haag hinter hleafsig hec hcred hnonce
    have hres : verify_attestation o (some att) challenge team_id bundle_id env =
        afterCerts o ad auth_data challenge team_id bundle_id env leaf inter := by
      unfold verify_attestation verifyBody
      simp [hfmt, hx5c, hAD, hparse]
    rw [hres]
    unfold afterCerts
    simp [structuralErrors, sigErrors, hrp, hflag, hsc, haag, hinter, hleafsig,
          hec, hcred, hnonce]
  · intro o decoded challenge team_id bundle_id env
    have h := va_ok_eq o decoded challenge team_id bundle_id env
    constructor
    · intro hk
      rw [hk] at h
      exact List.isEmpty_iff.mp h.symm
    · intro he
      rw [h, he]
      rfl

/-- Witness for `c4_accumulation`: a concrete attestation identical to the
valid one except that its signCount bytes encode 1. -/
theorem c4_accumulation_witness :
    (verify_attestation oracle0
        (some ⟨some "apple-appattest", [some leaf0, some leaf0],
               some (c32 ++ [64] ++ [0, 0, 0, 1] ++ expectedAaguid "dev" ++ [0, 32] ++ c32)⟩)
        [1, 2] "T" "B" "dev").errors = [signCountMsg 1] ∧
    (verify_attestation oracle0
        (some ⟨some "apple-appattest", [some leaf0, some leaf0],
               some (c32 ++ [64] ++ [0, 0, 0, 1] ++ expectedAaguid "dev" ++ [0, 32] ++ c32)⟩)
        [1, 2] "T" "B" "dev").ok = false :=
  c4_accumulation.1 oracle0 _ _
    ⟨c32, 64, 1, expectedAaguid "dev", 32, c32⟩ [1, 2] "T" "B" "dev" leaf0 leaf0
    rfl rfl rfl (by rfl) rfl (by decide) rfl rfl rfl rfl rfl rfl (by rfl)

/-- Claim C5: the nonce check accepts the extracted 32-byte nonce when it
equals either `SHA-256(authData || challenge)` or
`SHA-256(authData || SHA-256(challenge))`, and appends `Nonce mismatch`
exactly when it equals neither. -/
theorem c5_nonce_two_candidates :
    ∀ (o : Oracle) (leaf : Cert) (auth_data challenge payload nonce : Bytes),
      leaf.nonceExt = some payload →
      extract_nonce_from_extension payload = some nonce →
      ((nonce = o.sha256 (auth_data ++ challenge) ∨
        nonce = o.sha256 (auth_data ++ o.sha256 challenge)) →
        nonceCheckErrors o leaf auth_data challenge = []) ∧
      (nonce ≠ o.sha256 (auth_data ++ challenge) →
        nonce ≠ o.sha256 (auth_data ++ o.sha256 challenge) →
        nonceCheckErrors o leaf auth_data challenge = ["Nonce mismatch"]) := by
  intro o leaf auth_data challenge payload nonce hne hex
  constructor
  · rintro (h | h)
    · simp [nonceCheckErrors, hne, hex, h]
    · by_cases h1 : nonce = o.sha256 (auth_data ++ challenge)
      · simp [nonceCheckErrors, hne, hex, h1]
      · simp [nonceCheckErrors, hne, hex, h1, h]
  · intro h1 h2
    simp [nonceCheckErrors, hne, hex, h1, h2]

/-- Witness for `c5_nonce_two_candidates`: `leaf0` with the constant
oracle, whose extracted nonce equals the first candidate. -/
theorem c5_nonce_two_candidates_witness :
    nonceCheckErrors oracle0 leaf0 [9] [8] = [] :=
  (c5_nonce_two_candidates oracle0 leaf0 [9] [8] (4 :: 32 :: c32) c32 rfl (by rfl)).1
    (Or.inl rfl)

/-- Claim C8 (counterexample): with a non-EC leaf key, the remaining checks
are NOT attempted: here the nonce extension is absent — which would append
`Nonce extension not found` if the nonce check ran — yet the error list is
exactly the single non-EC error. -/
theorem c8_non_ec_counterexample :
    leafNonEC.nonceExt = none ∧
    (verify_attestation oracle0 (some att8) [1, 2, 3] "T" "B" "dev").errors =
      ["Leaf cert public key is not EC"] := by
  refine ⟨rfl, ?_⟩
  rfl

/-- Claim C8 (amended): when the leaf certificate's key is not EC, the
`NonECKey` error is appended after the structural and chain-signature
checks and verification returns immediately with `ok = false` and the
parsed credentialId; the credential-binding and nonce checks are
skipped. -/
theorem c8_non_ec_amended :
    ∀ (o : Oracle) (att : AttContainer) (challenge auth_data : Bytes) (ad : AuthData)
      (team_id bundle_id env : String) (leaf inter : Cert),
      att.fmt = some "apple-appattest" →
      att.x5c = [some leaf, some inter] →
      att.authData = some auth_data →
      parseAuthData auth_data = some ad →
      leaf.isEC = false →
      verify_attestation o (some att) challenge team_id bundle_id env =
        ⟨false, none, none, none, none, none, some ad.credentialId,
         (structuralErrors o ad team_id bundle_id env ++ sigErrors o inter leaf) ++
           ["Leaf cert public key is not EC"]⟩ := by
  intro o att challenge auth_data ad team_id bundle_id env leaf inter
    hfmt hx5c hAD hparse hec
  have hres : verify_attestation o (some att) challenge team_id bundle_id env =
      afterCerts o ad auth_data challenge team_id bundle_id env leaf inter := by
    unfold verify_attestation verifyBody
    simp [hfmt, hx5c, hAD, hparse]
  rw [hres]
  unfold afterCerts
  simp [hec]

/-- Witness for `c8_non_ec_amended` at the concrete `att8`. -/
theorem c8_non_ec_amended_witness :
    verify_attestation oracle0 (some att8) [1, 2, 3] "T" "B" "dev" =
      ⟨false, none, none, none, none, none, some c32,
       (structuralErrors oracle0 ⟨c32, 64, 0, expectedAaguid "dev", 32, c32⟩ "T" "B" "dev"
          ++ sigErrors oracle0 leaf0 leafNonEC) ++
         ["Leaf cert public key is not EC"]⟩ :=
  c8_non_ec_amended oracle0 att8 [1, 2, 3] authData0
    ⟨c32, 64, 0, expectedAaguid "dev", 32, c32⟩ "T" "B" "dev" leafNonEC leaf0
    rfl rfl rfl (by rfl) rfl

/-- Claim C10: `verify_attestation` never propagates an exception: whenever
the body raises (modelled by `verifyBody` returning `Except.error`), the
function returns a `VerificationResult` with `ok = false` whose error list
is the accumulated errors followed by a `Parse error: ...` entry. -/
theorem c10_no_raise :
    ∀ (o : Oracle) (decoded : Option AttContainer) (challenge : Bytes)
      (team_id bundle_id env : String) (es : List String) (m : String),
      verifyBody o decoded challenge team_id bundle_id env = .error (es, m) →
      verify_attestation o decoded challenge team_id bundle_id env =
        ⟨false, none, none, none, none, none, none, es ++ ["Parse error: " ++ m]⟩ := by
  intro o decoded challenge team_id bundle_id env es m h
  unfold verify_attestation
  rw [h]

/-- Witness for `c10_no_raise`: an undecodable attestation (base64/CBOR
failure). -/
theorem c10_no_raise_witness :
    verify_attestation oracle0 none [] "T" "B" "dev" =
      ⟨false, none, none, none, none, none, none,
       ["Parse error: invalid attestation encoding"]⟩ :=
  c10_no_raise oracle0 none [] "T" "B" "dev" [] "invalid attestation encoding" rfl

/-! ### Assertion verifier (`verify_assertion`, lines 53-101 of
`verify_assertion.py`) -/

/-- The decoded CBOR assertion: `assertion['signature']` and
`assertion['authenticatorData']` (`none` models a `KeyError`). -/
structure AssertionC where
  signature : Option Bytes
  authenticatorData : Option Bytes

/-- The `signed_data` dictionary: `passportHash`, `evmAddress` and
`assertion` (outer `none` models a missing key; the inner `Option` is the
result of base64+CBOR decoding the assertion string, `none` when either
raises). -/
structure SignedData where
  passportHash : Option String
  evmAddress : Option String
  assertion : Option (Option AssertionC)

/-- Library primitives consumed by `verify_assertion`: SHA-256, the
canonical `json.dumps({'passportHash': p, 'evmAddress': e},
separators=(',', ':')).encode()` serialisation, DER public-key loading
success, and the ECDSA signature check
`public_key.verify(signature, nonce, ec.ECDSA(hashes.SHA256()))`. -/
structure AssertOracle where
  sha256 : Bytes → Bytes
  dumps : String → String → Bytes
  loadKeyOk : Bytes → Bool
  sigValid : Bytes → Bytes → Bytes → Bool

/-- Exceptions escaping the body of `verify_assertion`:
`InvalidSignature` is caught separately (line 98) from every other
exception (line 100). -/
inductive AssertErr where
  | invalidSig : AssertErr
  | other : String → AssertErr

/-- The body of the `try` block of `verify_assertion` (lines 66-96). -/
def assertBody (o : AssertOracle) (signed_data : SignedData) (public_key_bytes : Bytes)
    (stored_counter : Nat) : Except AssertErr (Bool × Nat × String) :=
  match signed_data.passportHash with
  | none => .error (.other "KeyError: passportHash")
  | some passport_hash =>
    match signed_data.evmAddress with
    | none => .error (.other "KeyError: evmAddress")
    | some evm_address =>
      match signed_data.assertion with
      | none => .error (.other "KeyError: assertion")
      | some decodedAssertion =>
        match decodedAssertion with
        | none => .error (.other "invalid assertion encoding")
        | some assertion =>
          match assertion.signature with
          | none => .error (.other "KeyError: signature")
          | some signature =>
            match assertion.authenticatorData with
            | none => .error (.other "KeyError: authenticatorData")
            | some auth_data =>
              match unpackBE4 (pySlice auth_data 33 37) with
              | none => .error (.other "unpack requires a buffer of 4 bytes")
              | some counter =>
                if counter ≤ stored_counter then
                  .ok (false, stored_counter,
                       "Replay: counter " ++ toString counter ++ " <= " ++
                         toString stored_counter)
                else
                  let request_data := o.dumps passport_hash evm_address
                  let client_data_hash := o.sha256 request_data
                  let nonce := o.sha256 (auth_data ++ client_data_hash)
                  if ¬ o.loadKeyOk public_key_bytes then
                    .error (.other "could not deserialize key data")
                  else if ¬ o.sigValid public_key_bytes signature nonce then
                    .error .invalidSig
                  else
                    .ok (true, counter, "✅ Valid (counter: " ++ toString counter ++ ")")

/-- `verify_assertion` (lines 53-101): the `try`/`except` wrapper; both
handlers return `(False, stored_counter, message)`. -/
def verify_assertion (o : AssertOracle) (signed_data : SignedData)
    (public_key_bytes : Bytes) (stored_counter : Nat) : Bool × Nat × String :=
  match assertBody o signed_data public_key_bytes stored_counter with
  | .ok r => r
  | .error .invalidSig => (false, stored_counter, "❌ Invalid signature")
  | .error (.other e) => (false, stored_counter, "❌ Error: " ++ e)

/-- Claim C2: with the counter parsed from `authenticatorData[33:37]`,
(1) `counter ≤ stored_counter` fails with the replay message and returns
the stored counter — independently of the signature oracle, so signature
verification is never consulted; (2) `counter > stored_counter` with a
loadable key and a valid signature over
`SHA-256(authData || SHA-256(dumps(payload)))` succeeds and returns the
assertion's counter. -/
theorem c2_replay_and_success :
    ∀ (o : AssertOracle) (sd : SignedData) (pk : Bytes) (stored : Nat)
      (ph ea : String) (a : AssertionC) (sig auth_data : Bytes) (counter : Nat),
      sd.passportHash = some ph →
      sd.evmAddress = some ea →
      sd.assertion = some (some a) →
      a.signature = some sig →
      a.authenticatorData = some auth_data →
      unpackBE4 (pySlice auth_data 33 37) = some counter →
      (counter ≤ stored →
        verify_assertion o sd pk stored =
          (false, stored, "Replay: counter " ++ toString counter ++ " <= " ++
            toString stored)) ∧
      (stored < counter →
        o.loadKeyOk pk = true →
        o.sigValid pk sig (o.sha256 (auth_data ++ o.sha256 (o.dumps ph ea))) = true →
        verify_assertion o sd pk stored =
          (true, counter, "✅ Valid (counter: " ++ toString counter ++ ")")) := by
  intro o sd pk stored ph ea a sig auth_data counter hph hea has hsig had hcnt
  constructor
  · intro hle
    unfold verify_assertion assertBody
    simp [hph, hea, has, hsig, had, hcnt, hle]
  · intro hgt hload hsv
    unfold verify_assertion assertBody
    simp [hph, hea, has, hsig, had, hcnt, Nat.not_le.mpr hgt, hload, hsv]

/-- Witness for `c2_replay_and_success`: `storedCounter = 5` with
`signCount = 5` is rejected as a replay; with `signCount = 6` (and an
all-accepting signature oracle) it succeeds returning 6. -/
theorem c2_replay_and_success_witness :
    (verify_assertion ⟨fun _ => c32, fun _ _ => [], fun _ => true, fun _ _ _ => true⟩
        ⟨some "p", some "e", some (some ⟨some [1], some (List.replicate 33 0 ++ [0, 0, 0, 5])⟩)⟩
        [7] 5 =
      (false, 5, "Replay: counter 5 <= 5")) ∧
    (verify_assertion ⟨fun _ => c32, fun _ _ => [], fun _ => true, fun _ _ _ => true⟩
        ⟨some "p", some "e", some (some ⟨some [1], some (List.replicate 33 0 ++ [0, 0, 0, 6])⟩)⟩
        [7] 5 =
      (true, 6, "✅ Valid (counter: 6)")) :=
  ⟨(c2_replay_and_success ⟨fun _ => c32, fun _ _ => [], fun _ => true, fun _ _ _ => true⟩
      ⟨some "p", some "e", some (some ⟨some [1], some (List.replicate 33 0 ++ [0, 0, 0, 5])⟩)⟩
      [7] 5 "p" "e" ⟨some [1], some (List.replicate 33 0 ++ [0, 0, 0, 5])⟩ [1]
      (List.replicate 33 0 ++ [0, 0, 0, 5]) 5 rfl rfl rfl rfl rfl (by rfl)).1 (by decide),
   (c2_replay_and_success ⟨fun _ => c32, fun _ _ => [], fun _ => true, fun _ _ _ => true⟩
      ⟨some "p", some "e", some (some ⟨some [1], some (List.replicate 33 0 ++ [0, 0, 0, 6])⟩)⟩
      [7] 5 "p" "e" ⟨some [1], some (List.replicate 33 0 ++ [0, 0, 0, 6])⟩ [1]
      (List.replicate 33 0 ++ [0, 0, 0, 6]) 6 rfl rfl rfl rfl rfl (by rfl)).2
     (by decide) rfl rfl⟩

/-- Claim C9: `verify_assertion` is atomic with respect to the counter —
on every failure path the returned counter equals the stored counter it
was given. -/
theorem c9_counter_atomic :
    ∀ (o : AssertOracle) (sd : SignedData) (pk : Bytes) (stored : Nat),
      (verify_assertion o sd pk stored).1 = false →
      (verify_assertion o sd pk stored).2.1 = stored := by
  intro o sd pk stored h
  unfold verify_assertion at h ⊢
  cases hb : assertBody o sd pk stored with
  | error e =>
    cases e <;> simp
  | ok r =>
    rw [hb] at h
    simp only at h ⊢
    unfold assertBody at hb
    repeat' split at hb
    all_goals try (exact Except.noConfusion hb)
    · injection hb with hb'
      rw [← hb']
    · dsimp only at hb
      split at hb
      · exact Except.noConfusion hb
      · injection hb with hb'
        rw [← hb'] at h
        exact absurd h (by simp)

/-- Witness for `c9_counter_atomic`: a failing (replay) verification with
stored counter 41 keeps the counter at 41. -/
theorem c9_counter_atomic_witness :
    (verify_assertion ⟨fun _ => c32, fun _ _ => [], fun _ => true, fun _ _ _ => true⟩
        ⟨some "p", some "e", some (some ⟨some [1], some (List.replicate 33 0 ++ [0, 0, 0, 5])⟩)⟩
        [7] 41).2.1 = 41 :=
  c9_counter_atomic ⟨fun _ => c32, fun _ _ => [], fun _ => true, fun _ _ _ => true⟩
    ⟨some "p", some "e", some (some ⟨some [1], some (List.replicate 33 0 ++ [0, 0, 0, 5])⟩)⟩
    [7] 41 (by rfl)

end AppAttest
